import Mathlib

/-!
Shallow embedding of `src/predict.c` (oracle/memoptimizer): the per-order
least-squares trend estimator `lsq_fit` and the decision procedure `predict`.

Conventions of the embedding:
* C integer variables (`long`, `long long`, page counts, rates, timestamps) are
  modelled as unbounded `Int`, following the data model of the specification
  (§3: samples are signed integers; §7: overflow is a design-time concern and
  the arithmetic is intended to be exact).  C integer division truncates toward
  zero, hence every `/` of the source is embedded as `Int.tdiv`.
* The constants and types that live in the missing header `predict.h`
  (`LSQ_LOOKBACK`, `MAX_ORDER`, `struct lsq_struct`, `struct frag_info`, the
  `MEMPREDICT_*` bits) are modelled from the spec: the lookback window length
  `W` and the order count `maxOrder` become parameters, and the returned
  bitmask becomes a record of three independent flags (spec §6).
* The mutation of `struct lsq_struct` by `lsq_fit` is embedded by explicit
  state passing: `lsq_fit_state` is the state after the call and `lsq_fit_res`
  the `(m, c)` result (`none` embeds the C return value `-1`).
* The single `clock_gettime` read of `predict` is embedded by passing the
  fields `tv_sec` and `tv_nsec` of the observed `timespec` as inputs.
-/

namespace Memoptimizer

/-- The fitted line returned through the out-parameters `*m`, `*c` of
`lsq_fit` (slope scaled by 100, and intercept). -/
structure fit_result where
  m : Int
  c : Int
deriving DecidableEq, Repr

/-- Modelled from the spec (§3, §9, missing header `predict.h`):
`struct lsq_struct`, the per-order trend-estimator state — a ring of `W`
 time (`x`) and value (`y`) entries, the write cursor `next`, and the
`ready` flag. -/
structure lsq_struct (W : Nat) where
  x : Fin W → Int
  y : Fin W → Int
  next : Fin W
  ready : Bool

/-- Modelled from the spec (§6, missing header `predict.h`):
`struct frag_info`, one per-order sample of the input vector. -/
structure frag_info where
  free_pages : Int
  msecs : Int
deriving DecidableEq, Repr

/-- Modelled from the spec (§6, missing header `predict.h`): the returned
bitmask with its three independently-settable bits `MEMPREDICT_LOWER_WMARKS`,
`MEMPREDICT_RECLAIM`, `MEMPREDICT_COMPACT`. -/
structure MemPredictFlags where
  lower_wmarks : Bool
  reclaim : Bool
  compact : Bool
deriving DecidableEq, Repr

/-- The empty flag set (the C value `0`). -/
def MemPredictFlags.empty : MemPredictFlags := ⟨false, false, false⟩

/-- A freshly initialised estimator (spec §3 lifecycle: empty buffer,
cursor at 0, `ready = false`). -/
def lsqInit (W : Nat) (h : 0 < W) : lsq_struct W :=
  ⟨fun _ => 0, fun _ => 0, ⟨0, h⟩, false⟩

/-- `lsq->next++` with wrap-around: the cursor after the insertion
(`predict.c:46-51`). -/
def lsq_next1 {W : Nat} (s : lsq_struct W) : Fin W :=
  if h : s.next.val + 1 = W then ⟨0, s.next.pos⟩
  else ⟨s.next.val + 1, Nat.lt_of_le_of_ne (Nat.succ_le_of_lt s.next.isLt) h⟩

/-- The `ready` flag after the insertion: set when the cursor wraps for the
first time (`predict.c:50-58`). -/
def lsq_ready1 {W : Nat} (s : lsq_struct W) : Bool :=
  s.ready || decide (s.next.val + 1 = W)

/-- The `x` ring after `lsq->x[next] = new_x` (`predict.c:47`). -/
def lsq_x1 {W : Nat} (s : lsq_struct W) (new_x : Int) : Fin W → Int :=
  Function.update s.x s.next new_x

/-- The `y` ring after `lsq->y[next] = new_y` (`predict.c:48`). -/
def lsq_y1 {W : Nat} (s : lsq_struct W) (new_y : Int) : Fin W → Int :=
  Function.update s.y s.next new_y

/-- The translation loop `lsq->x[i] -= x_offset` (`predict.c:78-80`):
every time coordinate minus the oldest entry's time (the oldest entry sits at
the post-insertion cursor). -/
def translated {W : Nat} (x : Fin W → Int) (oldest : Fin W) : Fin W → Int :=
  fun i => x i - x oldest

/-- `slope_divisor = LSQ_LOOKBACK * sigma_xx - sigma_x * sigma_x`
(`predict.c:97`) over the translated time coordinates. -/
def slope_divisor {W : Nat} (xt : Fin W → Int) : Int :=
  (W : Int) * (∑ i, xt i * xt i) - (∑ i, xt i) * (∑ i, xt i)

/-- The slope/intercept computation of `lsq_fit` over a full window
(`predict.c:86-102`): accumulate `sigma_x`, `sigma_y`, `sigma_xy`, `sigma_xx`
over the translated time coordinates, guard against a zero `slope_divisor`,
and divide (C division truncates toward zero, hence `Int.tdiv`). -/
def fit_compute {W : Nat} (x1 y1 : Fin W → Int) (oldest : Fin W) :
    Option fit_result :=
  let xt := translated x1 oldest
  if slope_divisor xt = 0 then none
  else
    let m := (((W : Int) * (∑ i, xt i * y1 i) - (∑ i, xt i) * (∑ i, y1 i))
                * 100).tdiv (slope_divisor xt)
    some ⟨m, ((∑ i, y1 i) - m * (∑ i, xt i)).tdiv (W : Int)⟩

/-- The `(m, c)` result of `lsq_fit` (`predict.c:36-111`): `none` embeds the
C return value `-1` (window not yet full, or zero `slope_divisor`). -/
def lsq_fit_res {W : Nat} (s : lsq_struct W) (new_y new_x : Int) :
    Option fit_result :=
  if lsq_ready1 s = false then none
  else fit_compute (lsq_x1 s new_x) (lsq_y1 s new_y) (lsq_next1 s)

/-- The state of the estimator after `lsq_fit` returns (`predict.c:36-111`).
Note the source restores the translated time coordinates only on the success
path (`predict.c:107-108`); the zero-divisor early return at `predict.c:99`
leaves the ring translated. -/
def lsq_fit_state {W : Nat} (s : lsq_struct W) (new_y new_x : Int) :
    lsq_struct W :=
  let x1 := lsq_x1 s new_x
  let s1 : lsq_struct W := ⟨x1, lsq_y1 s new_y, lsq_next1 s, lsq_ready1 s⟩
  if lsq_ready1 s = false then s1
  else
    let x_offset := x1 (lsq_next1 s)
    let xt := translated x1 (lsq_next1 s)
    if slope_divisor xt = 0 then { s1 with x := xt }
    else { s1 with x := fun i => xt i + x_offset }

/-- `lsq_fit` as a state-passing function: the mutated estimator state
together with the `(m, c)` out-parameters (`none` = C return `-1`). -/
def lsq_fit {W : Nat} (s : lsq_struct W) (new_y new_x : Int) :
    lsq_struct W × Option fit_result :=
  (lsq_fit_state s new_y new_x, lsq_fit_res s new_y new_x)

/-- Feeding a sequence of `(value, time)` observations into one estimator. -/
def observeSeq {W : Nat} (s : lsq_struct W) (l : List (Int × Int)) :
    lsq_struct W :=
  l.foldl (fun s p => (lsq_fit s p.1 p.2).1) s

/-- The fit result obtained by `predict` for one order on the current call
(`predict.c:173-178`): the order's estimator is fed
`(frag_vec[order].free_pages, frag_vec[order].msecs)`. -/
def fitRes {W : Nat} (frag_vec : Nat → frag_info) (lsq : Nat → lsq_struct W)
    (o : Nat) : Option fit_result :=
  (lsq_fit (lsq o) (frag_vec o).free_pages (frag_vec o).msecs).2

/-- The slope `m[order]` computed by `predict` (meaningful when
`fitRes … o` is `some`). -/
def fitM {W : Nat} (frag_vec : Nat → frag_info) (lsq : Nat → lsq_struct W)
    (o : Nat) : Int :=
  ((fitRes frag_vec lsq o).getD ⟨0, 0⟩).m

/-- The intercept `c[order]` computed by `predict` (meaningful when
`fitRes … o` is `some`). -/
def fitC {W : Nat} (frag_vec : Nat → frag_info) (lsq : Nat → lsq_struct W)
    (o : Nat) : Int :=
  ((fitRes frag_vec lsq o).getD ⟨0, 0⟩).c

/-- The per-order estimator states after one `predict` invocation
(`predict.c:173-178` mutates every `lsq[order]` through `lsq_fit`). -/
def predict_update {W : Nat} (frag_vec : Nat → frag_info)
    (lsq : Nat → lsq_struct W) : Nat → lsq_struct W :=
  fun o => (lsq_fit (lsq o) (frag_vec o).free_pages (frag_vec o).msecs).1

/-- The order-0 branch of `predict` (`predict.c:197-251`): `none` embeds the
early `return 0` taken when the trend is negative and `reclaim_rate == 0`
(`predict.c:212-213`); otherwise `some` of the flags accumulated so far. -/
def reclaimBranch (m0 free0 high_wmark reclaim_rate : Int) :
    Option MemPredictFlags :=
  if 0 ≤ m0 then some ⟨true, false, false⟩
  else if reclaim_rate = 0 then none
  else if free0 ≤ high_wmark then some ⟨false, true, false⟩
  else
    let time_taken := (free0 - high_wmark).tdiv |m0|
    let time_to_catchup := (free0 - high_wmark).tdiv reclaim_rate
    if time_to_catchup ≤ time_taken then some ⟨false, true, false⟩
    else some MemPredictFlags.empty

/-- The compaction loop of `predict` (`predict.c:257-307`), scanning orders
`n, n-1, …, 1` ( the source runs `order = MAX_ORDER-1` down to `1`).  `none`
embeds the early `return 0` taken at the first non-parallel order when
`compaction_rate == 0` (`predict.c:264-265`); otherwise `some` of the
accumulated flags (a `break` after setting `MEMPREDICT_COMPACT` stops the
scan). -/
def compactScan (m c : Nat → Int) (compaction_rate tv_sec tv_nsec : Int) :
    Nat → MemPredictFlags → Option MemPredictFlags
  | 0, retval => some retval
  | o + 1, retval =>
    if m 0 = m (o + 1) then
      compactScan m c compaction_rate tv_sec tv_nsec o retval
    else if compaction_rate = 0 then none
    else
      let x_cross := ((c 0 - c (o + 1)) * 100).tdiv (m (o + 1) - m 0)
      let y_cross := (m (o + 1) * c 0 - m 0 * c (o + 1)).tdiv (m (o + 1) - m 0)
      if x_cross < 0 ∨ x_cross < tv_sec * 1000 + tv_nsec.tdiv 1000 then
        some { retval with compact := true }
      else
        let time_taken := x_cross - tv_sec * 1000 + tv_nsec.tdiv 1000
        let time_to_catchup := (c 0 - y_cross).tdiv compaction_rate
        if time_to_catchup ≤ time_taken then
          some { retval with compact := true }
        else compactScan m c compaction_rate tv_sec tv_nsec o retval

/-- The return value of `predict` (`predict.c:148-310`).  `maxOrder` is the
`MAX_ORDER` constant of the missing header; `frag_vec` and `lsq` are the two
input arrays; `tv_sec`/`tv_nsec` the `timespec` read by `clock_gettime`.
The state mutation of the call is `predict_update frag_vec lsq`. -/
def predict (W maxOrder : Nat) (frag_vec : Nat → frag_info)
    (lsq : Nat → lsq_struct W)
    (high_wmark reclaim_rate compaction_rate tv_sec tv_nsec : Int) :
    MemPredictFlags :=
  if ¬ (∀ o ∈ List.range maxOrder, (fitRes frag_vec lsq o).isSome = true) then
    MemPredictFlags.empty
  else
    match reclaimBranch (fitM frag_vec lsq 0) (frag_vec 0).free_pages
        high_wmark reclaim_rate with
    | none => MemPredictFlags.empty
    | some r0 =>
      match compactScan (fitM frag_vec lsq) (fitC frag_vec lsq)
          compaction_rate tv_sec tv_nsec (maxOrder - 1) r0 with
      | none => MemPredictFlags.empty
      | some r => r

/-! ### Basic lemmas about the estimator state -/

/-- The cursor stored by `lsq_fit` is `lsq_next1`, on every return path. -/
theorem lsq_fit_state_next {W : Nat} (s : lsq_struct W) (ny nx : Int) :
    (lsq_fit_state s ny nx).next = lsq_next1 s := by
  unfold lsq_fit_state
  dsimp only
  split
  · rfl
  · split <;> rfl

/-- The `ready` flag stored by `lsq_fit` is `lsq_ready1`, on every return
path. -/
theorem lsq_fit_state_ready {W : Nat} (s : lsq_struct W) (ny nx : Int) :
    (lsq_fit_state s ny nx).ready = lsq_ready1 s := by
  unfold lsq_fit_state
  dsimp only
  split
  · rfl
  · split <;> rfl

/-- The post-insertion cursor advances by one modulo `W`. -/
theorem lsq_next1_val {W : Nat} (s : lsq_struct W) :
    (lsq_next1 s).val = (s.next.val + 1) % W := by
  unfold lsq_next1
  split
  · next h => rw [h, Nat.mod_self]
  · next h =>
    exact (Nat.mod_eq_of_lt
      (Nat.lt_of_le_of_ne (Nat.succ_le_of_lt s.next.isLt) h)).symm

/-- One `lsq_fit` call preserves the fill invariant: after `n` observations
the cursor is `n % W` and `ready` holds exactly when `W ≤ n`. -/
theorem lsq_fit_step_invariant {W : Nat} (s : lsq_struct W) (ny nx : Int)
    (n : Nat) (hn : s.next.val = n % W) (hr : s.ready = decide (W ≤ n)) :
    ((lsq_fit s ny nx).1).next.val = (n + 1) % W ∧
    ((lsq_fit s ny nx).1).ready = decide (W ≤ n + 1) := by
  constructor
  · show (lsq_fit_state s ny nx).next.val = (n + 1) % W
    rw [lsq_fit_state_next, lsq_next1_val, hn]
    exact Nat.mod_add_mod n W 1
  · show (lsq_fit_state s ny nx).ready = decide (W ≤ n + 1)
    rw [lsq_fit_state_ready]
    unfold lsq_ready1
    rw [hr, hn]
    by_cases h : W ≤ n
    · simp [h, Nat.le_succ_of_le h]
    · have hlt : n < W := Nat.lt_of_not_le h
      rw [Nat.mod_eq_of_lt hlt]
      simp only [h, decide_False, Bool.false_or]
      rw [decide_eq_decide]
      omega

/-- The fill invariant propagated over a whole observation sequence. -/
theorem observeSeq_invariant {W : Nat} (l : List (Int × Int)) :
    ∀ (n : Nat) (s : lsq_struct W), s.next.val = n % W →
      s.ready = decide (W ≤ n) →
      (observeSeq s l).next.val = (n + l.length) % W ∧
      (observeSeq s l).ready = decide (W ≤ n + l.length) := by
  induction l with
  | nil =>
    intro n s hn hr
    simpa [observeSeq] using ⟨hn, hr⟩
  | cons p t ih =>
    intro n s hn hr
    have hstep := lsq_fit_step_invariant s p.1 p.2 n hn hr
    have h2 := ih (n + 1) ((lsq_fit s p.1 p.2).1) hstep.1 hstep.2
    have hrw : observeSeq s (p :: t) = observeSeq ((lsq_fit s p.1 p.2).1) t :=
      rfl
    rw [hrw, List.length_cons, show n + (t.length + 1) = n + 1 + t.length
      from by omega]
    exact h2

/-- C6: for every observation sequence fed to a single estimator with window
length `W ≥ 2`, the `ready` state is false for exactly the first `W - 1`
observations and true from the `W`-th observation onward; in particular the
`NOT_READY → READY` transition is one-way and `READY` is terminal. -/
theorem lsq_ready_window_fill (W : Nat) (hW : 2 ≤ W) (l : List (Int × Int)) :
    (observeSeq (lsqInit W (by omega)) l).ready = decide (W ≤ l.length) := by
  have h0 : (lsqInit W (show 0 < W by omega)).next.val = 0 % W := by
    simp [lsqInit]
  have h1 : (lsqInit W (show 0 < W by omega)).ready = decide (W ≤ 0) := by
    have : ¬ W ≤ 0 := by omega
    simp [lsqInit, this]
  have := (observeSeq_invariant l 0 (lsqInit W (show 0 < W by omega)) h0 h1).2
  simpa using this

/-- Witness for `lsq_ready_window_fill` at `W = 2` and a three-element
observation sequence. -/
theorem lsq_ready_window_fill_witness :
    2 ≤ 2 ∧ (observeSeq (lsqInit 2 (by omega)) [(1, 2), (3, 4), (5, 6)]).ready
      = decide (2 ≤ ([(1, 2), (3, 4), (5, 6)] : List (Int × Int)).length) :=
  ⟨by omega, lsq_ready_window_fill 2 (by omega) [(1, 2), (3, 4), (5, 6)]⟩

/-! ### The closed-form fit (C1) and offset invariance (C7) -/

/-- C1: on a ready (full) window, with x-coordinates first translated by
subtracting the oldest sample's time (the entry at the post-insertion cursor),
`lsq_fit` fails (returns `-1`, i.e. `none`) exactly when
`W·Σ(x²) − (Σx)² = 0`, and otherwise returns slope
`((W·Σ(xy) − Σx·Σy) · 100) / (W·Σ(x²) − (Σx)²)` and intercept
`(Σy − slope·Σx) / W`, both with C integer division (truncation toward
zero), the sums ranging over the `W` translated window points. -/
theorem lsq_fit_res_closed_form {W : Nat} (s : lsq_struct W) (new_y new_x : Int)
    (hready : lsq_ready1 s = true) :
    lsq_fit_res s new_y new_x =
      (let x1 := Function.update s.x s.next new_x
       let y1 := Function.update s.y s.next new_y
       let X : Fin W → Int := fun i => x1 i - x1 (lsq_next1 s)
       let Sx := ∑ i, X i
       let Sy := ∑ i, y1 i
       let Sxy := ∑ i, X i * y1 i
       let Sxx := ∑ i, X i * X i
       let D := (W : Int) * Sxx - Sx * Sx
       if D = 0 then none
       else
         let slope := (((W : Int) * Sxy - Sx * Sy) * 100).tdiv D
         some ⟨slope, (Sy - slope * Sx).tdiv (W : Int)⟩) := by
  unfold lsq_fit_res
  rw [hready]
  rfl

/-- Witness for `lsq_fit_res_closed_form` on a concrete ready window. -/
theorem lsq_fit_res_closed_form_witness :
    lsq_ready1 (⟨![0, 10], ![5, 25], 0, true⟩ : lsq_struct 2) = true ∧
    lsq_fit_res (⟨![0, 10], ![5, 25], 0, true⟩ : lsq_struct 2) 45 20 =
      some ⟨200, -965⟩ :=
  ⟨by decide,
    (lsq_fit_res_closed_form (⟨![0, 10], ![5, 25], 0, true⟩ : lsq_struct 2)
      45 20 (by decide)).trans (by decide)⟩

/-- Translating every time coordinate by a constant leaves the translated
window unchanged, because the oldest entry is translated by the same
constant. -/
theorem translated_shift {W : Nat} (x1 : Fin W → Int) (oldest : Fin W)
    (k : Int) :
    translated (fun i => x1 i + k) oldest = translated x1 oldest := by
  funext i
  unfold translated
  ring

/-- The fit computation is invariant under a constant shift of all time
coordinates. -/
theorem fit_compute_shift {W : Nat} (x1 y1 : Fin W → Int) (oldest : Fin W)
    (k : Int) :
    fit_compute (fun i => x1 i + k) y1 oldest = fit_compute x1 y1 oldest := by
  unfold fit_compute
  rw [translated_shift]

/-- Inserting the shifted sample into the shifted ring gives the shifted
updated ring. -/
theorem lsq_x1_shift {W : Nat} (s : lsq_struct W) (new_x k : Int) :
    lsq_x1 { s with x := fun i => s.x i + k } (new_x + k)
      = fun i => lsq_x1 s new_x i + k := by
  funext i
  unfold lsq_x1
  by_cases h : i = s.next
  · subst h
    simp
  · simp [Function.update_noteq h]

/-- C7: for every full window and every constant `k`, fitting after adding
`k` to every time coordinate (the stored ones and the new sample's) yields
the same slope and the same intercept — exact translation invariance, because
the computation first subtracts the oldest sample's time. -/
theorem lsq_fit_offset_invariance {W : Nat} (s : lsq_struct W)
    (k new_y new_x : Int) (hready : lsq_ready1 s = true) :
    lsq_fit_res { s with x := fun i => s.x i + k } new_y (new_x + k)
      = lsq_fit_res s new_y new_x := by
  have hready' : lsq_ready1 { s with x := fun i => s.x i + k } = true := hready
  unfold lsq_fit_res
  rw [hready, hready']
  show fit_compute (lsq_x1 { s with x := fun i => s.x i + k } (new_x + k))
      (lsq_y1 s new_y) (lsq_next1 s)
    = fit_compute (lsq_x1 s new_x) (lsq_y1 s new_y) (lsq_next1 s)
  rw [lsq_x1_shift, fit_compute_shift]

/-- Witness for `lsq_fit_offset_invariance` on a concrete ready window with
shift `k = 7`. -/
theorem lsq_fit_offset_invariance_witness :
    lsq_ready1 (⟨![3, 14], ![50, 20], 0, true⟩ : lsq_struct 2) = true ∧
    lsq_fit_res { (⟨![3, 14], ![50, 20], 0, true⟩ : lsq_struct 2) with
        x := fun i => (⟨![3, 14], ![50, 20], 0, true⟩ : lsq_struct 2).x i + 7 }
      9 (6 + 7)
    = lsq_fit_res (⟨![3, 14], ![50, 20], 0, true⟩ : lsq_struct 2) 9 6 :=
  ⟨by decide,
    lsq_fit_offset_invariance (⟨![3, 14], ![50, 20], 0, true⟩ : lsq_struct 2)
      7 9 6 (by decide)⟩

/-! ### The degenerate window clobbers the stored times (C4) -/

/-- C4 (failing input): feeding `(y, time) = (1, 5)` then `(2, 5)` into a
fresh `W = 2` estimator makes the second call hit the zero-`slope_divisor`
early return (`predict.c:98-99`), which skips the restore loop at
`predict.c:107-108`: the stored time of the first sample is changed from `5`
to `0` (the whole ring is left translated), and the call reports failure.
This contradicts the spec's requirement that the fit leave prior samples'
stored values unchanged on every return path. -/
theorem lsq_fit_degenerate_leaves_translated_x :
    ((lsq_fit ((lsq_fit (lsqInit 2 (Nat.succ_pos 1)) 1 5).1) 2 5).1).x 0 = 0 ∧
    ((lsq_fit (lsqInit 2 (Nat.succ_pos 1)) 1 5).1).x 0 = 5 ∧
    (lsq_fit ((lsq_fit (lsqInit 2 (Nat.succ_pos 1)) 1 5).1) 2 5).2 = none :=
  ⟨by decide, by decide, by decide⟩

/-! ### Readiness gating of predict (C5) -/

/-- C5: if any order's estimator does not produce a fitted line on the
current call (in particular when its window is not yet full), `predict`
returns the empty flag set, with no partial recommendations from the orders
that were ready. -/
theorem predict_not_ready_empty {W : Nat} (maxOrder : Nat)
    (frag_vec : Nat → frag_info) (lsq : Nat → lsq_struct W)
    (hw rr crate s ns : Int) (o : Nat) (ho : o < maxOrder)
    (hnone : fitRes frag_vec lsq o = none) :
    predict W maxOrder frag_vec lsq hw rr crate s ns = MemPredictFlags.empty := by
  have hcond : ¬ (∀ o ∈ List.range maxOrder,
      (fitRes frag_vec lsq o).isSome = true) := by
    intro hall
    have h := hall o (List.mem_range.mpr ho)
    rw [hnone] at h
    simp at h
  unfold predict
  rw [if_pos hcond]

/-- Witness for `predict_not_ready_empty`: the very first call on a fresh
`W = 2` estimator is not ready. -/
theorem predict_not_ready_empty_witness :
    0 < 1 ∧
    fitRes (fun _ => (⟨9, 4⟩ : frag_info))
      (fun _ => lsqInit 2 (Nat.succ_pos 1)) 0 = none ∧
    predict 2 1 (fun _ => (⟨9, 4⟩ : frag_info))
      (fun _ => lsqInit 2 (Nat.succ_pos 1)) 3 1 1 0 0 = MemPredictFlags.empty :=
  ⟨Nat.succ_pos 0, by decide,
    predict_not_ready_empty 1 (fun _ => (⟨9, 4⟩ : frag_info))
      (fun _ => lsqInit 2 (Nat.succ_pos 1)) 3 1 1 0 0 0 (Nat.succ_pos 0)
      (by decide)⟩

/-! ### The compaction scan when every order is parallel to order 0 (C9) -/

/-- If every scanned order's slope equals order 0's, the compaction loop
falls off the end without touching the flags and without consulting
`compaction_rate`. -/
theorem compactScan_parallel (m c : Nat → Int) (crate s ns : Int) (n : Nat)
    (r : MemPredictFlags) (hpar : ∀ o, 1 ≤ o → o ≤ n → m o = m 0) :
    compactScan m c crate s ns n r = some r := by
  induction n with
  | zero => rfl
  | succ k ih =>
    have h1 : m 0 = m (k + 1) := (hpar (k + 1) (by omega) le_rfl).symm
    simp only [compactScan]
    rw [if_pos h1]
    exact ih fun o ho1 ho2 => hpar o ho1 (by omega)

/-- C9: when all estimators are ready and every order `1 ≤ o < MAX_ORDER`
has a slope exactly equal to order 0's, `predict` never reaches the
zero-compaction-rate early return (the parallel-line skip is checked first
for each order), so it returns exactly the flags decided by the order-0
branch even when the compaction rate is zero. -/
theorem predict_all_parallel_keeps_flags {W : Nat} (maxOrder : Nat)
    (frag_vec : Nat → frag_info) (lsq : Nat → lsq_struct W)
    (hw rr s ns crate : Int)
    (hready : ∀ o ∈ List.range maxOrder, (fitRes frag_vec lsq o).isSome = true)
    (hpar : ∀ o, 1 ≤ o → o < maxOrder →
      fitM frag_vec lsq o = fitM frag_vec lsq 0)
    (_hcrate : crate = 0) :
    predict W maxOrder frag_vec lsq hw rr crate s ns =
      (reclaimBranch (fitM frag_vec lsq 0) (frag_vec 0).free_pages hw rr).getD
        MemPredictFlags.empty := by
  unfold predict
  rw [if_neg (not_not_intro hready)]
  cases hrb : reclaimBranch (fitM frag_vec lsq 0) (frag_vec 0).free_pages
      hw rr with
  | none => rfl
  | some r0 =>
    have hscan := compactScan_parallel (fitM frag_vec lsq) (fitC frag_vec lsq)
      crate s ns (maxOrder - 1) r0 (fun o ho1 ho2 => hpar o ho1 (by omega))
    dsimp only
    rw [hscan]
    rfl

/-- Witness for `predict_all_parallel_keeps_flags`: two flat parallel trend
lines, compaction rate zero — `predict` still reports "lower watermarks". -/
theorem predict_all_parallel_keeps_flags_witness :
    (∀ o ∈ List.range 2,
      (fitRes (fun _ => (⟨7, 5⟩ : frag_info))
        (predict_update (fun _ => (⟨7, 0⟩ : frag_info))
          (fun _ => lsqInit 2 (Nat.succ_pos 1))) o).isSome = true) ∧
    predict 2 2 (fun _ => (⟨7, 5⟩ : frag_info))
      (predict_update (fun _ => (⟨7, 0⟩ : frag_info))
        (fun _ => lsqInit 2 (Nat.succ_pos 1))) 1 3 0 0 0 =
      (reclaimBranch
        (fitM (fun _ => (⟨7, 5⟩ : frag_info))
          (predict_update (fun _ => (⟨7, 0⟩ : frag_info))
            (fun _ => lsqInit 2 (Nat.succ_pos 1))) 0)
        ((fun _ => (⟨7, 5⟩ : frag_info)) 0).free_pages 1 3).getD
        MemPredictFlags.empty :=
  ⟨by decide,
    predict_all_parallel_keeps_flags 2 (fun _ => (⟨7, 5⟩ : frag_info))
      (predict_update (fun _ => (⟨7, 0⟩ : frag_info))
        (fun _ => lsqInit 2 (Nat.succ_pos 1))) 1 3 0 0 0
      (by decide) (by decide) rfl⟩

/-! ### The zero-compaction-rate early return (C2) -/

/-- Every flag set produced by the order-0 branch has the compact bit
clear. -/
theorem reclaimBranch_compact_false (m0 f0 hw rr : Int) (r : MemPredictFlags)
    (h : reclaimBranch m0 f0 hw rr = some r) : r.compact = false := by
  unfold reclaimBranch at h
  dsimp only at h
  split_ifs at h <;>
    first
      | exact Option.noConfusion h
      | · simp only [Option.some.injEq] at h
          rw [← h]
      | · simp only [Option.some.injEq] at h
          rw [← h]
          rfl

/-- With a zero compaction rate the scan either takes the early `return 0`
or falls through with the incoming flags untouched; it never sets compact. -/
theorem compactScan_zero_rate_cases (m c : Nat → Int) (s ns : Int) (n : Nat)
    (r : MemPredictFlags) :
    compactScan m c 0 s ns n r = none ∨ compactScan m c 0 s ns n r = some r := by
  induction n with
  | zero => exact Or.inr rfl
  | succ k ih =>
    unfold compactScan
    by_cases h : m 0 = m (k + 1)
    · rw [if_pos h]
      exact ih
    · rw [if_neg h, if_pos rfl]
      exact Or.inl rfl

/-- With a zero compaction rate, the first scanned order whose slope differs
from order 0's triggers the early `return 0`. -/
theorem compactScan_zero_rate_nonparallel (m c : Nat → Int) (s ns : Int)
    (n : Nat) (r : MemPredictFlags)
    (hex : ∃ o, 1 ≤ o ∧ o ≤ n ∧ m o ≠ m 0) :
    compactScan m c 0 s ns n r = none := by
  induction n with
  | zero =>
    obtain ⟨o, h1, h2, _⟩ := hex
    omega
  | succ k ih =>
    unfold compactScan
    by_cases h : m 0 = m (k + 1)
    · rw [if_pos h]
      obtain ⟨o, h1, h2, h3⟩ := hex
      have ho : o ≤ k := by
        rcases Nat.lt_or_ge o (k + 1) with hlt | hge
        · omega
        · exact absurd (show m o = m 0 by
            have : o = k + 1 := by omega
            rw [this, ← h]) h3
      exact ih ⟨o, h1, ho, h3⟩
    · rw [if_neg h, if_pos rfl]

/-- C2 (counterexample): all estimators ready, compaction rate zero, but both
orders' trend lines are parallel (identical samples), so the zero-rate early
return is never reached and the "lower watermarks" flag decided by the
order-0 branch is returned — the flag set is not empty. -/
theorem predict_zero_crate_not_empty_cex :
    predict 2 2 (fun _ => (⟨20, 10⟩ : frag_info))
      (predict_update (fun _ => (⟨10, 0⟩ : frag_info))
        (fun _ => lsqInit 2 (Nat.succ_pos 1))) 0 0 0 0 0
      = ⟨true, false, false⟩ ∧
    (⟨true, false, false⟩ : MemPredictFlags) ≠ MemPredictFlags.empty :=
  ⟨by decide, by decide⟩

/-- C2 (amended): with a zero compaction rate the returned flags always omit
compact; and if additionally all estimators are ready and at least one
scanned order has a slope different from order 0's, the zero-rate early
return is taken and the whole flag set, including the order-0 branch's
already-decided flags, is discarded. -/
theorem predict_zero_crate_spec {W : Nat} (maxOrder : Nat)
    (frag_vec : Nat → frag_info) (lsq : Nat → lsq_struct W)
    (hw rr s ns crate : Int) (hcrate : crate = 0) :
    (predict W maxOrder frag_vec lsq hw rr crate s ns).compact = false ∧
    ((∀ o ∈ List.range maxOrder, (fitRes frag_vec lsq o).isSome = true) →
      (∃ o, 1 ≤ o ∧ o < maxOrder ∧
        fitM frag_vec lsq o ≠ fitM frag_vec lsq 0) →
      predict W maxOrder frag_vec lsq hw rr crate s ns
        = MemPredictFlags.empty) := by
  subst hcrate
  constructor
  · unfold predict
    split
    · rfl
    cases hrb : reclaimBranch (fitM frag_vec lsq 0) (frag_vec 0).free_pages
        hw rr with
    | none => rfl
    | some r0 =>
      dsimp only
      rcases compactScan_zero_rate_cases (fitM frag_vec lsq)
          (fitC frag_vec lsq) s ns (maxOrder - 1) r0 with hsc | hsc <;>
        rw [hsc]
      · rfl
      · exact reclaimBranch_compact_false _ _ _ _ r0 hrb
  · intro hready hex
    unfold predict
    rw [if_neg (not_not_intro hready)]
    cases hrb : reclaimBranch (fitM frag_vec lsq 0) (frag_vec 0).free_pages
        hw rr with
    | none => rfl
    | some r0 =>
      dsimp only
      obtain ⟨o, h1, h2, h3⟩ := hex
      rw [compactScan_zero_rate_nonparallel (fitM frag_vec lsq)
        (fitC frag_vec lsq) s ns (maxOrder - 1) r0 ⟨o, h1, by omega, h3⟩]

/-- Witness for `predict_zero_crate_spec`: order 0 rising, order 1 flat
(non-parallel), compaction rate zero — the whole flag set is discarded. -/
theorem predict_zero_crate_spec_witness :
    (0 : Int) = 0 ∧
    (predict 2 2 (fun o => if o = 0 then (⟨20, 10⟩ : frag_info) else ⟨4, 10⟩)
      (predict_update
        (fun o => if o = 0 then (⟨10, 0⟩ : frag_info) else ⟨4, 0⟩)
        (fun _ => lsqInit 2 (Nat.succ_pos 1))) 0 0 0 0 0).compact = false ∧
    predict 2 2 (fun o => if o = 0 then (⟨20, 10⟩ : frag_info) else ⟨4, 10⟩)
      (predict_update
        (fun o => if o = 0 then (⟨10, 0⟩ : frag_info) else ⟨4, 0⟩)
        (fun _ => lsqInit 2 (Nat.succ_pos 1))) 0 0 0 0 0
      = MemPredictFlags.empty :=
  ⟨rfl,
    (predict_zero_crate_spec 2
      (fun o => if o = 0 then (⟨20, 10⟩ : frag_info) else ⟨4, 10⟩)
      (predict_update
        (fun o => if o = 0 then (⟨10, 0⟩ : frag_info) else ⟨4, 0⟩)
        (fun _ => lsqInit 2 (Nat.succ_pos 1))) 0 0 0 0 0 rfl).1,
    (predict_zero_crate_spec 2
      (fun o => if o = 0 then (⟨20, 10⟩ : frag_info) else ⟨4, 10⟩)
      (predict_update
        (fun o => if o = 0 then (⟨10, 0⟩ : frag_info) else ⟨4, 0⟩)
        (fun _ => lsqInit 2 (Nat.succ_pos 1))) 0 0 0 0 0 rfl).2
      (by decide) ⟨1, by omega, by omega, by decide⟩⟩

/-! ### The compaction trigger condition (C3) -/

/-- C3 (counterexample): a two-order scenario in which the lines of order 1
and order 0 cross exactly at the current wall-clock time
(`x_cross = tv_sec·1000 + tv_nsec/1000 = 1000`), the orders are not
parallel, and the compaction rate is positive — yet `predict` returns the
empty flag set: the source compares `x_cross < now` strictly, falls into the
else-branch with `time_taken = 0 < 1 = time_to_catchup`, and never sets
"compact". -/
theorem compact_xcross_eq_now_not_set_cex :
    fitM (fun o => if o = 0 then (⟨500, 10⟩ : frag_info) else ⟨5, 10⟩)
      (predict_update
        (fun o => if o = 0 then (⟨510, 0⟩ : frag_info) else ⟨5, 0⟩)
        (fun _ => lsqInit 2 (Nat.succ_pos 1))) 1 ≠
      fitM (fun o => if o = 0 then (⟨500, 10⟩ : frag_info) else ⟨5, 10⟩)
        (predict_update
          (fun o => if o = 0 then (⟨510, 0⟩ : frag_info) else ⟨5, 0⟩)
          (fun _ => lsqInit 2 (Nat.succ_pos 1))) 0 ∧
    ((fitC (fun o => if o = 0 then (⟨500, 10⟩ : frag_info) else ⟨5, 10⟩)
        (predict_update
          (fun o => if o = 0 then (⟨510, 0⟩ : frag_info) else ⟨5, 0⟩)
          (fun _ => lsqInit 2 (Nat.succ_pos 1))) 0
      - fitC (fun o => if o = 0 then (⟨500, 10⟩ : frag_info) else ⟨5, 10⟩)
          (predict_update
            (fun o => if o = 0 then (⟨510, 0⟩ : frag_info) else ⟨5, 0⟩)
            (fun _ => lsqInit 2 (Nat.succ_pos 1))) 1) * 100).tdiv
      (fitM (fun o => if o = 0 then (⟨500, 10⟩ : frag_info) else ⟨5, 10⟩)
        (predict_update
          (fun o => if o = 0 then (⟨510, 0⟩ : frag_info) else ⟨5, 0⟩)
          (fun _ => lsqInit 2 (Nat.succ_pos 1))) 1
        - fitM (fun o => if o = 0 then (⟨500, 10⟩ : frag_info) else ⟨5, 10⟩)
            (predict_update
              (fun o => if o = 0 then (⟨510, 0⟩ : frag_info) else ⟨5, 0⟩)
              (fun _ => lsqInit 2 (Nat.succ_pos 1))) 0)
      = 1 * 1000 + (0 : Int).tdiv 1000 ∧
    predict 2 2 (fun o => if o = 0 then (⟨500, 10⟩ : frag_info) else ⟨5, 10⟩)
      (predict_update
        (fun o => if o = 0 then (⟨510, 0⟩ : frag_info) else ⟨5, 0⟩)
        (fun _ => lsqInit 2 (Nat.succ_pos 1))) 100 1 1000 1 0
      = MemPredictFlags.empty :=
  ⟨by decide, by decide, by decide⟩

/-- C3 (amended): one step of the compaction scan.  An order whose slope
equals order 0's never triggers "compact" and the scan moves on; a
non-parallel order (with nonzero compaction rate) sets "compact" and stops
exactly when `x_cross < 0`, or `x_cross` is *strictly* less than the current
time `tv_sec·1000 + tv_nsec/1000`, or
`x_cross − tv_sec·1000 + tv_nsec/1000 ≥ (intercept₀ − y_cross)/compaction_rate`
(the nanosecond term is added, not subtracted, in the source's
`time_taken`); otherwise the scan moves to the next lower order. -/
theorem compactScan_step_spec (m c : Nat → Int) (crate s ns : Int) (o : Nat)
    (r : MemPredictFlags) (hrate : crate ≠ 0) :
    (m (o + 1) = m 0 →
      compactScan m c crate s ns (o + 1) r = compactScan m c crate s ns o r) ∧
    (m (o + 1) ≠ m 0 →
      compactScan m c crate s ns (o + 1) r =
        (let x_cross := ((c 0 - c (o + 1)) * 100).tdiv (m (o + 1) - m 0)
         let y_cross :=
           (m (o + 1) * c 0 - m 0 * c (o + 1)).tdiv (m (o + 1) - m 0)
         if x_cross < 0 ∨ x_cross < s * 1000 + ns.tdiv 1000
            ∨ (c 0 - y_cross).tdiv crate ≤ x_cross - s * 1000 + ns.tdiv 1000
         then some { r with compact := true }
         else compactScan m c crate s ns o r)) := by
  constructor
  · intro h
    conv_lhs => unfold compactScan
    dsimp only
    rw [if_pos h.symm]
  · intro h
    conv_lhs => unfold compactScan
    dsimp only
    rw [if_neg (fun hh => h hh.symm), if_neg hrate]
    split_ifs <;> first | rfl | tauto

/-- Witness for `compactScan_step_spec` with concrete lines: order 1 flat at
5, order 0 falling from 2005 with scaled slope −200, crossing at
`x_cross = 1000` strictly after the current time `0`, with
`time_to_catchup = 2000 > 1000 = time_taken`: the scan neither triggers nor
stops. -/
theorem compactScan_step_spec_witness :
    (1 : Int) ≠ 0 ∧
    compactScan (fun o => if o = 0 then -200 else 0)
      (fun o => if o = 0 then 2005 else 5) 1 0 0 1
      MemPredictFlags.empty = some MemPredictFlags.empty :=
  ⟨by decide,
    ((compactScan_step_spec (fun o => if o = 0 then -200 else 0)
      (fun o => if o = 0 then 2005 else 5) 1 0 0 0
      MemPredictFlags.empty (by decide)).2 (by decide)).trans (by decide)⟩

/-! ### The worked example (C8) -/

/-- C8 (counterexample): for the worked example — window length 3, order-0
samples `(free_pages, time_ms) = (100,0), (90,10), (80,20)` — the fit
returns intercept `1090`, not `≈ 100`: the source computes the intercept
from the ×100-scaled slope (`c = (Σy − m·Σx)/W` with `m = −100`), so the
claimed intercept value is off by an order of magnitude. -/
theorem worked_example_intercept_cex :
    (fitRes (fun _ => (⟨80, 20⟩ : frag_info))
        (predict_update (fun _ => (⟨90, 10⟩ : frag_info))
          (predict_update (fun _ => (⟨100, 0⟩ : frag_info))
            (fun _ => lsqInit 3 (Nat.succ_pos 2)))) 0).map fit_result.c
      = some 1090 ∧
    (1090 : Int) ≠ 100 :=
  ⟨by decide, by decide⟩

/-- C8 (amended): for the worked example the fit produces the ×100-scaled
slope `−100` and intercept `1090` (computed from the scaled slope), and with
`reclaim_rate = 2` and `high_watermark = 50` the order-0 branch does NOT set
"reclaim": `free_pages = 80 > 50`, `time_taken = (80−50)/|−100| = 0`,
`time_to_catchup = (80−50)/2 = 15`, and `0 ≥ 15` fails. -/
theorem worked_example_eval :
    fitRes (fun _ => (⟨80, 20⟩ : frag_info))
      (predict_update (fun _ => (⟨90, 10⟩ : frag_info))
        (predict_update (fun _ => (⟨100, 0⟩ : frag_info))
          (fun _ => lsqInit 3 (Nat.succ_pos 2)))) 0 = some ⟨-100, 1090⟩ ∧
    reclaimBranch (-100) 80 50 2 = some MemPredictFlags.empty ∧
    predict 3 1 (fun _ => (⟨80, 20⟩ : frag_info))
      (predict_update (fun _ => (⟨90, 10⟩ : frag_info))
        (predict_update (fun _ => (⟨100, 0⟩ : frag_info))
          (fun _ => lsqInit 3 (Nat.succ_pos 2)))) 50 2 7 0 0
      = MemPredictFlags.empty :=
  ⟨by decide, by decide, by decide⟩

/-! ### No division by zero (C10) -/

/-- The divisors of the divisions `lsq_fit` executes, in control-flow order:
nothing before the window is full or when the zero-divisor guard returns;
otherwise the `slope_divisor` division (`predict.c:101`) and the division by
`LSQ_LOOKBACK` (`predict.c:102`). -/
def lsq_fit_divisors {W : Nat} (s : lsq_struct W) (_new_y new_x : Int) :
    List Int :=
  if lsq_ready1 s = false then []
  else
    let xt := translated (lsq_x1 s new_x) (lsq_next1 s)
    if slope_divisor xt = 0 then []
    else [slope_divisor xt, (W : Int)]

/-- The divisors of the divisions the order-0 branch of `predict` executes
(`predict.c:197-251`): only the `time_taken`/`time_to_catchup` divisions by
`abs(m[0])` and `reclaim_rate` (`predict.c:228-235`), reached only when
`m[0] < 0`, `reclaim_rate ≠ 0` and `free_pages > high_wmark`. -/
def reclaim_divisors (m0 free0 high_wmark reclaim_rate : Int) : List Int :=
  if 0 ≤ m0 then []
  else if reclaim_rate = 0 then []
  else if free0 ≤ high_wmark then []
  else [|m0|, reclaim_rate]

/-- The divisors of the divisions the compaction loop of `predict` executes
(`predict.c:257-307`): per non-parallel order, the two divisions by
`m[order] − m[0]` (`predict.c:271-274`), the `tv_nsec/1000` divisions, and —
in the else-branch — the division by `compaction_rate` (`predict.c:296`). -/
def compact_divisors (m c : Nat → Int) (crate tv_sec tv_nsec : Int) :
    Nat → List Int
  | 0 => []
  | o + 1 =>
    if m 0 = m (o + 1) then compact_divisors m c crate tv_sec tv_nsec o
    else if crate = 0 then []
    else
      let d := m (o + 1) - m 0
      let x_cross := ((c 0 - c (o + 1)) * 100).tdiv d
      if x_cross < 0 ∨ x_cross < tv_sec * 1000 + tv_nsec.tdiv 1000 then
        [d, d, 1000]
      else if (c 0 - (m (o + 1) * c 0 - m 0 * c (o + 1)).tdiv d).tdiv crate
          ≤ x_cross - tv_sec * 1000 + tv_nsec.tdiv 1000 then
        [d, d, 1000, 1000, crate]
      else [d, d, 1000, 1000, crate]
        ++ compact_divisors m c crate tv_sec tv_nsec o

/-- The divisors of all divisions one `predict` invocation executes: those
of the `lsq_fit` call for every order, then — only if every order is ready —
those of the order-0 branch, then — only if that branch did not take its
early return — those of the compaction loop. -/
def predict_divisors (W maxOrder : Nat) (frag_vec : Nat → frag_info)
    (lsq : Nat → lsq_struct W) (hw rr crate s ns : Int) : List Int :=
  ((List.range maxOrder).map fun o =>
      lsq_fit_divisors (lsq o) (frag_vec o).free_pages (frag_vec o).msecs).flatten
  ++ (if ¬ (∀ o ∈ List.range maxOrder, (fitRes frag_vec lsq o).isSome = true)
      then []
      else
        reclaim_divisors (fitM frag_vec lsq 0) (frag_vec 0).free_pages hw rr
        ++ match reclaimBranch (fitM frag_vec lsq 0) (frag_vec 0).free_pages
            hw rr with
          | none => []
          | some _ => compact_divisors (fitM frag_vec lsq) (fitC frag_vec lsq)
              crate s ns (maxOrder - 1))

/-- No division of `lsq_fit` divides by zero. -/
theorem lsq_fit_divisors_ne_zero {W : Nat} (s : lsq_struct W)
    (new_y new_x : Int) : (0 : Int) ∉ lsq_fit_divisors s new_y new_x := by
  unfold lsq_fit_divisors
  dsimp only
  split_ifs with h1 h2
  · exact List.not_mem_nil 0
  · exact List.not_mem_nil 0
  · intro hmem
    have hW : (W : Int) ≠ 0 := by
      have := s.next.pos
      exact_mod_cast Nat.pos_iff_ne_zero.mp this
    rcases List.mem_cons.mp hmem with h | h
    · exact h2 h.symm
    · rcases List.mem_cons.mp h with h | h
      · exact hW h.symm
      · exact List.not_mem_nil 0 h

/-- No division of the order-0 branch divides by zero. -/
theorem reclaim_divisors_ne_zero (m0 free0 hw rr : Int) :
    (0 : Int) ∉ reclaim_divisors m0 free0 hw rr := by
  unfold reclaim_divisors
  split_ifs with h1 h2 h3
  · exact List.not_mem_nil 0
  · exact List.not_mem_nil 0
  · exact List.not_mem_nil 0
  · intro hmem
    rcases List.mem_cons.mp hmem with h | h
    · exact absurd h.symm (abs_ne_zero.mpr (by omega))
    · rcases List.mem_cons.mp h with h | h
      · exact h2 h.symm
      · exact List.not_mem_nil 0 h

/-- No division of the compaction loop divides by zero. -/
theorem compact_divisors_ne_zero (m c : Nat → Int) (crate s ns : Int)
    (n : Nat) : (0 : Int) ∉ compact_divisors m c crate s ns n := by
  induction n with
  | zero => exact List.not_mem_nil 0
  | succ k ih =>
    unfold compact_divisors
    dsimp only
    split_ifs with h1 h2 h3 h4
    · exact ih
    · exact List.not_mem_nil 0
    · intro hmem
      have hd : m (k + 1) - m 0 ≠ 0 := sub_ne_zero_of_ne fun hh => h1 hh.symm
      rcases List.mem_cons.mp hmem with h | h
      · exact hd h.symm
      · rcases List.mem_cons.mp h with h | h
        · exact hd h.symm
        · rcases List.mem_cons.mp h with h | h
          · norm_num at h
          · exact List.not_mem_nil 0 h
    · intro hmem
      have hd : m (k + 1) - m 0 ≠ 0 := sub_ne_zero_of_ne fun hh => h1 hh.symm
      rcases List.mem_cons.mp hmem with h | h
      · exact hd h.symm
      · rcases List.mem_cons.mp h with h | h
        · exact hd h.symm
        · rcases List.mem_cons.mp h with h | h
          · norm_num at h
          · rcases List.mem_cons.mp h with h | h
            · norm_num at h
            · rcases List.mem_cons.mp h with h | h
              · exact h2 h.symm
              · exact List.not_mem_nil 0 h
    · intro hmem
      have hd : m (k + 1) - m 0 ≠ 0 := sub_ne_zero_of_ne fun hh => h1 hh.symm
      rcases List.mem_append.mp hmem with h | h
      · rcases List.mem_cons.mp h with h | h
        · exact hd h.symm
        · rcases List.mem_cons.mp h with h | h
          · exact hd h.symm
          · rcases List.mem_cons.mp h with h | h
            · norm_num at h
            · rcases List.mem_cons.mp h with h | h
              · norm_num at h
              · rcases List.mem_cons.mp h with h | h
                · exact h2 h.symm
                · exact List.not_mem_nil 0 h
      · exact ih h

/-- C10: no division executed by `lsq_fit` or `predict` is a division by
zero: the slope/intercept divisions are behind the `slope_divisor == 0`
guard (and `LSQ_LOOKBACK = W > 0`), the order-0-branch divisions by
`abs(m[0])` and `reclaim_rate` are reached only with `m[0] < 0` and
`reclaim_rate ≠ 0`, and the compaction-loop divisions by
`m[order] − m[0]` and `compaction_rate` sit behind the parallel-slope skip
and the zero-compaction-rate early return. -/
theorem no_division_by_zero {W : Nat} (s0 : lsq_struct W) (ny nx : Int)
    (maxOrder : Nat) (frag_vec : Nat → frag_info) (lsq : Nat → lsq_struct W)
    (hw rr crate s ns : Int) :
    (0 : Int) ∉ lsq_fit_divisors s0 ny nx ∧
    (0 : Int) ∉ predict_divisors W maxOrder frag_vec lsq hw rr crate s ns := by
  refine ⟨lsq_fit_divisors_ne_zero s0 ny nx, ?_⟩
  unfold predict_divisors
  intro hmem
  rcases List.mem_append.mp hmem with h | h
  · obtain ⟨l, hl, h0⟩ := List.mem_flatten.mp h
    obtain ⟨o, _, rfl⟩ := List.mem_map.mp hl
    exact lsq_fit_divisors_ne_zero _ _ _ h0
  · revert h
    split_ifs with h1
    · intro h
      rcases List.mem_append.mp h with h | h
      · exact reclaim_divisors_ne_zero _ _ _ _ h
      · revert h
        cases reclaimBranch (fitM frag_vec lsq 0) (frag_vec 0).free_pages
            hw rr with
        | none => exact List.not_mem_nil 0
        | some r0 => exact compact_divisors_ne_zero _ _ _ _ _ _
    · exact List.not_mem_nil 0

end Memoptimizer
